import Mathlib

/-!
Verification of the SDF (Standard Delay Format) writer of the
`sdf_timing` package, shallowly embedded from `sdf_timing/sdfwrite.py`.

Modelling conventions:
* Python dictionaries are association lists (`List (String × _)`) whose
  order is the dictionary's insertion order; `sorted(d)` over a dictionary
  sorts its keys lexicographically, modelled by `sortedKeys`.
* Numeric values stored in a `Triple` are represented by their Python
  `str()` rendering (the writer only ever interpolates them into strings),
  and a slot holding Python `None` is `Option.none`; `str(None)` is the
  four-character text `None`, modelled by `pyStr`.
* Code paths that raise a Python exception (`TypeError`, `KeyError`,
  `AttributeError`, `UnboundLocalError`) are modelled with `Except String`,
  the error string naming the exception.
* `String.toUpper`, `str.startswith`, substring membership and
  `str.replace` are re-implemented over character lists so that every
  definition evaluates inside the kernel.
-/

/-! ## Python string primitives -/

/-- Lexicographic comparison of character lists by code point,
the order Python `sorted` uses on strings. -/
def charsLe : List Char → List Char → Bool
  | [], _ => true
  | _ :: _, [] => false
  | a :: as, b :: bs => if a < b then true else if b < a then false else charsLe as bs

/-- Lexicographic order on strings (Python string comparison). -/
def strLe (a b : String) : Prop := charsLe a.data b.data = true

instance : DecidableRel strLe := fun a b => instDecidableEqBool (charsLe a.data b.data) true

/-- ASCII uppercase of one character (Python `str.upper` on ASCII data). -/
def pyCharUpper (c : Char) : Char :=
  if 'a' ≤ c ∧ c ≤ 'z' then Char.ofNat (c.toNat - 32) else c

/-- Python `str.upper` (the SDF keywords and names involved are ASCII). -/
def pyUpper (s : String) : String := ⟨s.data.map pyCharUpper⟩

/-- Is the first list a prefix of the second? -/
def isPrefixChars : List Char → List Char → Bool
  | [], _ => true
  | _ :: _, [] => false
  | a :: as, b :: bs => a = b && isPrefixChars as bs

/-- Python `s.startswith(p)`. -/
def pyStartswith (s p : String) : Bool := isPrefixChars p.data s.data

/-- Does the needle occur as a contiguous sublist of the haystack? -/
def containsAt (needle : List Char) : List Char → Bool
  | [] => isPrefixChars needle []
  | c :: rest => isPrefixChars needle (c :: rest) || containsAt needle rest

/-- Python substring membership `sub in s`. -/
def inStr (sub s : String) : Bool := containsAt sub.data s.data

/-- Python `str(x)` of an optional string: `None` prints as `None`. -/
def pyStr : Option String → String
  | none => "None"
  | some s => s

/-- One left-to-right pass deleting every occurrence of `None`
(`str.replace("None", "")`). -/
def stripNoneChars : List Char → List Char
  | 'N' :: 'o' :: 'n' :: 'e' :: rest => stripNoneChars rest
  | c :: rest => c :: stripNoneChars rest
  | [] => []

/-- Deletion of every occurrence of None, the `emit_sdf` replace call of sdfwrite.py line 270. -/
def stripNone (s : String) : String := ⟨stripNoneChars s.data⟩

/-! ## Data model (§3 of the spec, fields as read by sdfwrite.py) -/

/-- A delay-value triple; absent slots are Python `None`.  The numeric
values are carried as their `str()` rendering. -/
structure Triple where
  min : Option String
  avg : Option String
  max : Option String
deriving DecidableEq

/-- One timing entry, with exactly the fields `sdfwrite.py` reads. -/
structure Entry where
  name : String
  type : String
  from_pin : String
  to_pin : String
  from_pin_edge : Option String
  to_pin_edge : Option String
  is_absolute : Bool
  is_incremental : Bool
  is_timing_check : Bool
  is_timing_env : Bool
  is_cond : Bool
  cond_equation : Option String
  delay_paths : List (String × Triple)
deriving DecidableEq

/-- A header value: free text / divider / timescale hold a string,
voltage and temperature hold a triple. -/
inductive HVal where
  | strV (s : String)
  | tripV (t : Triple)
deriving DecidableEq

/-- Entries of one instance: entry key to entry. -/
abbrev EntriesT := List (String × Entry)

instance decEqEntriesT : DecidableEq EntriesT := inferInstance

/-- Instances of one cell type: instance path to its entries. -/
abbrev InstT := List (String × EntriesT)

instance decEqInstT : DecidableEq InstT := inferInstance

/-- The cells mapping: cell-type name to its instances. -/
abbrev CellsT := List (String × InstT)

instance decEqCellsT : DecidableEq CellsT := inferInstance

/-- A top-level value of the document dictionary handed to `emit_sdf`. -/
inductive PyTop where
  | headerV (h : List (String × HVal))
  | cellsV (c : CellsT)
deriving DecidableEq

/-- The document as read by `print_sdf`: a `header` mapping (always
present) and an optional `cells` mapping. -/
structure SdfDoc where
  header : List (String × HVal)
  cells : Option CellsT

instance : DecidableEq SdfDoc := fun x y =>
  decidable_of_iff (x.header = y.header ∧ x.cells = y.cells) (by cases x; cases y; simp)

/-! ## Dictionary operations -/

/-- Python dictionary access on an association list (first binding wins; a real
Python dictionary has unique keys). -/
def dictLookup : List (String × α) → String → Option α
  | [], _ => none
  | p :: rest, k => if p.1 = k then some p.2 else dictLookup rest k

/-- Python sorted over a dictionary: its keys in lexicographic order. -/
def sortedKeys (d : List (String × α)) : List String :=
  List.insertionSort strLe (d.map Prod.fst)

/-! ## The writer `emit_sdf` and its helpers (sdfwrite.py lines 21-271) -/

/-- Function `gen_timing_entry` (lines 21-31): an all-`None` triple renders `()`,
anything else renders `(min:avg:max)` with `str()` of each slot. -/
def gen_timing_entry (entry : Triple) : String :=
  if entry.min = none ∧ entry.avg = none ∧ entry.max = none then "()"
  else "(" ++ pyStr entry.min ++ ":" ++ pyStr entry.avg ++ ":" ++ pyStr entry.max ++ ")"

/-- The port spec of an output pin (lines 47-51, 90-94, 155-159):
edge-qualified when an edge is present, otherwise the bare path. -/
def outPortStr (e : Entry) : String :=
  match e.to_pin_edge with
  | some edge => "(" ++ edge ++ " " ++ e.to_pin ++ ")"
  | none => e.to_pin

/-- The port spec of an input pin (lines 53-57, 96-100, 161-165). -/
def inPortStr (e : Entry) : String :=
  match e.from_pin_edge with
  | some edge => "(" ++ edge ++ " " ++ e.from_pin ++ ")"
  | none => e.from_pin

/-- Loop body of `emit_timingenv_entries` (lines 40-65); the entry's
contribution, empty for non-timing-env entries. -/
def tenvEntryStr (e : Entry) : Except String String :=
  if e.is_timing_env = false then .ok ""
  else
    match dictLookup e.delay_paths "rise" with
    | none => .error "KeyError: rise"
    | some r =>
      match dictLookup e.delay_paths "fall" with
      | none => .error "KeyError: fall"
      | some f =>
        .ok ("\n                (PATHCONSTRAINT " ++ outPortStr e ++ " " ++ inPortStr e
          ++ " " ++ gen_timing_entry r ++ " " ++ gen_timing_entry f ++ ")")

/-- The `for delay in sorted(delays)` loop of `emit_timingenv_entries`. -/
def tenvLoop (delays : EntriesT) : List String → String → Except String String
  | [], acc => .ok acc
  | k :: rest, acc =>
    match dictLookup delays k with
    | none => .error "KeyError"
    | some e =>
      match tenvEntryStr e with
      | .error msg => .error msg
      | .ok s => tenvLoop delays rest (acc ++ s)

/-- Function `emit_timingenv_entries` (lines 34-74). -/
def emit_timingenv_entries (delays : EntriesT) : Except String String :=
  match tenvLoop delays (sortedKeys delays) "" with
  | .error msg => .error msg
  | .ok entries =>
    if entries = "" then .ok ""
    else .ok ("\n        (TIMINGENV" ++ entries ++ "\n        )")

/-- Loop body of `emit_timingcheck_entries` (lines 82-126); the entry's
contribution, empty for non-timing-check entries. -/
def tcheckEntryStr (e : Entry) : Except String String :=
  if e.is_timing_check = false then .ok ""
  else
    let input0 := inPortStr e
    let input1 :=
      if e.is_cond then "(COND " ++ pyStr e.cond_equation ++ " " ++ input0 ++ ")"
      else input0
    let output1 := if pyStartswith e.name "width" then "" else outPortStr e
    if pyStartswith e.name "setuphold" then
      match dictLookup e.delay_paths "setup" with
      | none => .error "KeyError: setup"
      | some s =>
        match dictLookup e.delay_paths "hold" with
        | none => .error "KeyError: hold"
        | some h =>
          .ok ("\n                (" ++ pyUpper e.type ++ " " ++ output1 ++ " " ++ input1
            ++ " " ++ gen_timing_entry s ++ " " ++ gen_timing_entry h ++ ")")
    else
      match dictLookup e.delay_paths "nominal" with
      | none => .error "KeyError: nominal"
      | some n =>
        .ok ("\n                (" ++ pyUpper e.type ++ " " ++ output1 ++ " " ++ input1
          ++ " " ++ gen_timing_entry n ++ ")")

/-- The `for delay in sorted(delays)` loop of `emit_timingcheck_entries`. -/
def tcheckLoop (delays : EntriesT) : List String → String → Except String String
  | [], acc => .ok acc
  | k :: rest, acc =>
    match dictLookup delays k with
    | none => .error "KeyError"
    | some e =>
      match tcheckEntryStr e with
      | .error msg => .error msg
      | .ok s => tcheckLoop delays rest (acc ++ s)

/-- Function `emit_timingcheck_entries` (lines 77-135). -/
def emit_timingcheck_entries (delays : EntriesT) : Except String String :=
  match tcheckLoop delays (sortedKeys delays) "" with
  | .error msg => .error msg
  | .ok entries =>
    if entries = "" then .ok ""
    else .ok ("\n        (TIMINGCHECK" ++ entries ++ "\n        )")

/-- Line 170 of `emit_delay_entries`: the loop
`for delval in delay['delay_paths']` binds `delval` to each KEY of the
mapping (a string), and `gen_timing_entry(delval)` then evaluates
`delval['min']`; subscripting a Python string with the string `'min'`
raises `TypeError`. -/
def gen_timing_entry_key (_key : String) : Except String String :=
  .error "TypeError: string indices must be integers"

/-- Lines 167-170 of `emit_delay_entries`: accumulate
`gen_timing_entry(delval)` over the keys of `delay_paths`. -/
def timValStr : List (String × Triple) → Except String String
  | [] => .ok ""
  | (k, _) :: rest =>
    match gen_timing_entry_key k with
    | .error msg => .error msg
    | .ok s =>
      match timValStr rest with
      | .error msg => .error msg
      | .ok r => .ok (s ++ r)

/-- Loop body of `emit_delay_entries` for an absolute or incremental
entry (lines 153-205). -/
def delayEntryStr (e : Entry) : Except String String :=
  let input0 := inPortStr e
  let output0 := outPortStr e
  match timValStr e.delay_paths with
  | .error msg => .error msg
  | .ok timval =>
    if pyStartswith e.type "port" then
      .ok ("\n                (PORT " ++ input0 ++ " " ++ timval ++ ")")
    else if pyStartswith e.type "interconnect" then
      .ok ("\n                (INTERCONNECT " ++ input0 ++ " " ++ output0 ++ " " ++ timval ++ ")")
    else if pyStartswith e.type "device" then
      .ok ("\n                (DEVICE " ++ input0 ++ " " ++ timval ++ ")")
    else if e.is_cond then
      .ok ("\n                (COND (" ++ pyStr e.cond_equation ++ ")"
        ++ "\n                " ++ "     " ++ "(IOPATH " ++ input0 ++ " " ++ output0
        ++ " " ++ timval ++ ")" ++ "\n                    )")
    else
      .ok ("\n                " ++ "(IOPATH " ++ input0 ++ " " ++ output0 ++ " " ++ timval ++ ")")

/-- The `for delay in sorted(delays)` loop of `emit_delay_entries`,
accumulating the absolute and the incremental entries separately. -/
def delayLoop (delays : EntriesT) :
    List String → String → String → Except String (String × String)
  | [], accA, accI => .ok (accA, accI)
  | k :: rest, accA, accI =>
    match dictLookup delays k with
    | none => .error "KeyError"
    | some e =>
      if e.is_absolute = false ∧ e.is_incremental = false then
        delayLoop delays rest accA accI
      else
        match delayEntryStr e with
        | .error msg => .error msg
        | .ok entry =>
          if e.is_absolute then delayLoop delays rest (accA ++ entry) accI
          else delayLoop delays rest accA (accI ++ entry)

/-- Function `emit_delay_entries` (lines 138-232). -/
def emit_delay_entries (delays : EntriesT) : Except String String :=
  match delayLoop delays (sortedKeys delays) "" "" with
  | .error msg => .error msg
  | .ok (accA, accI) =>
    let s1 := if accA ≠ "" ∨ accI ≠ "" then "\n        (DELAY" else ""
    let s2 := if accA ≠ "" then "\n            (ABSOLUTE" ++ accA ++ "\n            )" else ""
    let s3 := if accI ≠ "" then "\n            (INCREMENT" ++ accI ++ "\n            )" else ""
    let s4 := if accA ≠ "" ∨ accI ≠ "" then "\n        )" else ""
    .ok (s1 ++ s2 ++ s3 ++ s4)

/-- One `(CELL ...)` block of `emit_sdf` (lines 252-265). -/
def cellBlock (celltype location : String) (entriesDict : EntriesT) : Except String String :=
  match emit_delay_entries entriesDict with
  | .error msg => .error msg
  | .ok d =>
    match emit_timingcheck_entries entriesDict with
    | .error msg => .error msg
    | .ok t =>
      match emit_timingenv_entries entriesDict with
      | .error msg => .error msg
      | .ok v =>
        .ok ("\n    (CELL\n        (CELLTYPE \"" ++ celltype ++ "\")"
          ++ "\n        (INSTANCE " ++ location ++ ")" ++ d ++ t ++ v ++ "\n    )")

/-- The `for location in sorted(timings['cells'][cell])` loop (line 245). -/
def locLoop (celltype : String) (celldata : InstT) :
    List String → String → Except String String
  | [], acc => .ok acc
  | loc :: rest, acc =>
    match dictLookup celldata loc with
    | none => .error "KeyError"
    | some entriesDict =>
      match cellBlock celltype loc entriesDict with
      | .error msg => .error msg
      | .ok b => locLoop celltype celldata rest (acc ++ b)

/-- The `for cell in sorted(timings['cells'])` loop (line 244). -/
def cellsLoop (uppercase : Bool) (cells : CellsT) :
    List String → String → Except String String
  | [], acc => .ok acc
  | c :: rest, acc =>
    match dictLookup cells c with
    | none => .error "KeyError"
    | some celldata =>
      let celltype := if uppercase then pyUpper c else c
      match locLoop celltype celldata (sortedKeys celldata) "" with
      | .error msg => .error msg
      | .ok blocks => cellsLoop uppercase cells rest (acc ++ blocks)

/-- Function `emit_sdf` (lines 235-271).  The `for slice in timings` loop rebuilds
the same `sdf` string once per top-level key, so only the emptiness of
`timings` matters: on an empty dictionary `sdf` is never assigned and the
final `sdf.replace` raises `UnboundLocalError`. -/
def emit_sdf (timings : List (String × PyTop)) (timescale : String)
    (uppercase_celltype : Bool) : Except String String :=
  match timings with
  | [] => .error "UnboundLocalError: local variable sdf referenced before assignment"
  | _ :: _ =>
    let base := "(DELAYFILE\n    (SDFVERSION \"3.0\")\n    (TIMESCALE " ++ timescale ++ ")\n"
    let body :=
      match dictLookup timings "cells" with
      | some (.cellsV cells) => cellsLoop uppercase_celltype cells (sortedKeys cells) ""
      | some (.headerV _) => .error "TypeError: the cells key holds the cells mapping"
      | none => .ok ""
    match body with
    | .error msg => .error msg
    | .ok b => .ok (stripNone (base ++ b ++ "\n)"))

/-! ## The writer `print_sdf` and its helpers (sdfwrite.py lines 285-330) -/

/-- Function `format_triplet` (lines 285-295): like `gen_timing_entry` but with no
parentheses, and an all-`None` triple renders as the empty string. -/
def format_triplet (entry : Triple) : String :=
  if entry.min = none ∧ entry.avg = none ∧ entry.max = none then ""
  else pyStr entry.min ++ ":" ++ pyStr entry.avg ++ ":" ++ pyStr entry.max

/-- Model of the timescale regex match of line 315: a nonempty run of digits
followed by a nonempty digit-free tail. -/
def timescaleSplit (v : String) : Option (String × String) :=
  let ds := v.data.takeWhile Char.isDigit
  let rest := v.data.dropWhile Char.isDigit
  if ds ≠ [] ∧ rest ≠ [] ∧ rest.all (fun c => ¬ c.isDigit) then some (⟨ds⟩, ⟨rest⟩)
  else none

/-- One header line of `print_sdf` (lines 309-319). -/
def headerItemStr (indent k : String) (v : HVal) : Except String String :=
  let rendered : Except String String :=
    if k = "voltage" ∨ k = "temperature" then
      match v with
      | .tripV t => .ok (format_triplet t)
      | .strV _ => .error "TypeError: string indices must be integers"
    else if k = "divider" then
      match v with
      | .strV s => .ok s
      -- a divider always holds its one-character string; a triple here is
      -- unreachable for parser-produced documents
      | .tripV _ => .error "TypeError: divider holds a string"
    else if k = "timescale" then
      match v with
      | .strV s =>
        match timescaleSplit s with
        | some (d, u) => .ok (d ++ " " ++ u)
        -- `m.group(1)` with `m = None` when the pattern does not match
        | none => .error "AttributeError: NoneType object has no attribute group"
      | .tripV _ => .error "TypeError: expected string or bytes-like object"
    else
      match v with
      | .strV s => .ok ("\"" ++ s ++ "\"")
      | .tripV _ => .error "TypeError: can only concatenate str to str"
  match rendered with
  | .error msg => .error msg
  | .ok v1 => .ok (indent ++ "(" ++ pyUpper k ++ " " ++ v1 ++ ")")

/-- The `for k,v in sdfdata['header'].items()` loop (lines 309-319);
each `print` call appends one line. -/
def headerLoop (indent : String) : List (String × HVal) → String → Except String String
  | [], acc => .ok acc
  | (k, v) :: rest, acc =>
    match headerItemStr indent k v with
    | .error msg => .error msg
    | .ok line => headerLoop indent rest (acc ++ line ++ "\n")

/-- Function `print_timing_record` (lines 297-304): for a delay-family record it
prints an empty `(DELAY (ABSOLUTE|INCREMENTAL))` skeleton; the record's
pins, triples and conditions are never printed. -/
def print_timing_record (rec : Entry) (indent : String) : String :=
  if inStr rec.type "interconnect" || inStr rec.type "iopath" || inStr rec.type "port" then
    indent ++ indent ++ "(DELAY\n"
    ++ indent ++ indent ++ indent
    ++ (if rec.is_absolute then "(ABSOLUTE" else "(INCREMENTAL") ++ "\n"
    ++ indent ++ indent ++ indent ++ ")\n" ++ indent ++ indent ++ ")\n"
  else ""

/-- The `for rec,recdata in instdata.items()` loop (lines 327-328). -/
def recsLoop (indent : String) : EntriesT → String
  | [] => ""
  | (_, rec) :: rest => print_timing_record rec indent ++ recsLoop indent rest

/-- The `for inst,instdata in celldata.items()` loop (lines 324-328). -/
def instsLoop (indent cell : String) : InstT → String
  | [] => ""
  | (inst, instdata) :: rest =>
    indent ++ indent ++ "(CELLTYPE \"" ++ cell ++ "\")\n"
    ++ indent ++ indent ++ "(INSTANCE " ++ inst ++ ")\n"
    ++ recsLoop indent instdata ++ instsLoop indent cell rest

/-- The `for cell,celldata in sdfdata['cells'].items()` loop
(lines 322-329); note: insertion order, no sorting. -/
def cellsPrintLoop (indent : String) : CellsT → String
  | [] => ""
  | (cell, celldata) :: rest =>
    indent ++ "(CELL\n" ++ instsLoop indent cell celldata
    ++ indent ++ ")\n" ++ cellsPrintLoop indent rest

/-- Function `print_sdf` (lines 306-330), with the printed text collected into the
returned string. -/
def print_sdf (sdfdata : SdfDoc) (indent : String) : Except String String :=
  match headerLoop indent sdfdata.header "" with
  | .error msg => .error msg
  | .ok hdr =>
    let cellsPart :=
      match sdfdata.cells with
      | some cs => cellsPrintLoop indent cs
      | none => ""
    .ok ("(DELAYFILE\n" ++ hdr ++ cellsPart ++ ")")

/-! ## Spec-modelled parser fragment -/

/-- Modelled from the spec: the expression parser (§4.2) is not under
`src/`; its output is the original token sequence re-joined with exactly
one space between tokens. -/
def normalizeCondTokens (toks : List String) : String :=
  String.intercalate " " toks

/-! ## Derived definitions and concrete inputs for the claims -/

/-- Two dictionaries holding the same bindings, possibly inserted in
different orders: duplicate-free keys, equal key multisets, and values
related wherever keys coincide. -/
def EquivDict (r : α → α → Prop) (a b : List (String × α)) : Prop :=
  (a.map Prod.fst).Nodup ∧
  (a.map Prod.fst).Perm (b.map Prod.fst) ∧
  ∀ p ∈ a, ∀ q ∈ b, p.1 = q.1 → r p.2 q.2

instance {α} {r : α → α → Prop} [∀ x y, Decidable (r x y)] (a b : List (String × α)) :
    Decidable (EquivDict r a b) := by
  unfold EquivDict
  infer_instance

/-- The (cell-type, instance) pairs in the order `emit_sdf` visits them. -/
def cellPairs (cells : CellsT) : List (String × String) :=
  (sortedKeys cells).flatMap (fun c =>
    match dictLookup cells c with
    | some celldata => (sortedKeys celldata).map (fun l => (c, l))
    | none => [])

/-- Lexicographic order on (cell-type, instance) pairs. -/
def cellOrdLE (p q : String × String) : Prop :=
  strLe p.1 q.1 ∧ (p.1 = q.1 → strLe p.2 q.2)

def cellsW1 : CellsT := [("bbuf", [("u2", []), ("u1", [])]), ("abuf", [("u3", [])])]

def cellsW2 : CellsT := [("abuf", [("u3", [])]), ("bbuf", [("u1", []), ("u2", [])])]

instance {ε α : Type} [DecidableEq ε] [DecidableEq α] : DecidableEq (Except ε α) := fun x y =>
  match x, y with
  | .error a, .error b => decidable_of_iff (a = b) (by simp)
  | .ok a, .ok b => decidable_of_iff (a = b) (by simp)
  | .error _, .ok _ => isFalse (by simp)
  | .ok _, .error _ => isFalse (by simp)

def entryC3 : Entry :=
  { name := "period_clk", type := "period", from_pin := "clk", to_pin := "clk",
    from_pin_edge := none, to_pin_edge := none,
    is_absolute := false, is_incremental := false,
    is_timing_check := true, is_timing_env := false,
    is_cond := false, cond_equation := none,
    delay_paths := [("nominal", ⟨some "1", none, some "3"⟩)] }

def docC3 : List (String × PyTop) :=
  [("cells", PyTop.cellsV [("buf", [("top/u1", [("period_clk", entryC3)])])])]

def docC9a : List (String × PyTop) :=
  [("cells", PyTop.cellsV [("aNonecell", [("top/u1", [])])])]

def docC9b : List (String × PyTop) :=
  [("cells", PyTop.cellsV [("acell", [("top/u1", [])])])]

def entryC2 : Entry :=
  { name := "iopath_a_y", type := "iopath", from_pin := "a", to_pin := "y",
    from_pin_edge := none, to_pin_edge := none,
    is_absolute := true, is_incremental := false,
    is_timing_check := false, is_timing_env := false,
    is_cond := false, cond_equation := none,
    delay_paths := [("nominal", ⟨some "1", some "2", some "3"⟩)] }

def docC2 : List (String × PyTop) :=
  [("cells", PyTop.cellsV [("buf", [("top/u1", [("iopath_a_y", entryC2)])])])]

/-- The apostrophe character, built from its code point. -/
def apos : Char := Char.ofNat 39

/-- The based constant token of the conditional-IOPATH scenario. -/
def tokB1 : String := "1" ++ String.singleton apos ++ "b1"

/-- The token-spaced conditional equation of the scenario. -/
def condEq : String := "en == " ++ tokB1

def entryRetainPlain : Entry :=
  { name := "iopath_mck_b/c/clk", type := "iopath", from_pin := "mck", to_pin := "b/c/clk",
    from_pin_edge := none, to_pin_edge := none,
    is_absolute := true, is_incremental := false,
    is_timing_check := false, is_timing_env := false,
    is_cond := false, cond_equation := none,
    delay_paths := [("nominal", ⟨some "2", some "2", some "2"⟩)] }

def entryRetainCond : Entry :=
  { name := "iopath_d[0]_b/c/d", type := "iopath", from_pin := "d[0]", to_pin := "b/c/d",
    from_pin_edge := none, to_pin_edge := none,
    is_absolute := true, is_incremental := false,
    is_timing_check := false, is_timing_env := false,
    is_cond := true, cond_equation := some condEq,
    delay_paths := [("nominal", ⟨some "0.4", some "0.4", some "0.4"⟩)] }

def docRetain : SdfDoc :=
  { header := [("sdfversion", HVal.strV "3.0"), ("timescale", HVal.strV "100ps")],
    cells := some [("somecell",
      [("someinst", [("iopath_mck_b/c/clk", entryRetainPlain),
                     ("iopath_d[0]_b/c/d", entryRetainCond)])])] }

def docCond : SdfDoc :=
  { header := [("sdfversion", HVal.strV "3.0")],
    cells := some [("somecell", [("someinst", [("iopath_d[0]_b/c/d", entryRetainCond)])])] }

def entryC8 : Entry :=
  { name := "width_clk", type := "width", from_pin := "clk", to_pin := "clk",
    from_pin_edge := some "negedge", to_pin_edge := some "negedge",
    is_absolute := false, is_incremental := false,
    is_timing_check := true, is_timing_env := false,
    is_cond := false, cond_equation := none,
    delay_paths := [("nominal", ⟨some "4.4", some "7.5", some "11.3"⟩)] }

def entryC10a : Entry :=
  { name := "check1", type := "setuphold", from_pin := "d", to_pin := "clk",
    from_pin_edge := none, to_pin_edge := some "posedge",
    is_absolute := false, is_incremental := false,
    is_timing_check := true, is_timing_env := false,
    is_cond := false, cond_equation := none,
    delay_paths := [("nominal", ⟨some "1", some "2", some "3"⟩)] }

def entryC10b : Entry :=
  { name := "setuphold_d_clk", type := "recovery", from_pin := "clk", to_pin := "d",
    from_pin_edge := some "posedge", to_pin_edge := none,
    is_absolute := false, is_incremental := false,
    is_timing_check := true, is_timing_env := false,
    is_cond := false, cond_equation := none,
    delay_paths := [("setup", ⟨some "3", some "4", some "5"⟩),
                    ("hold", ⟨some "-1", some "-1", some "-1"⟩)] }

def entryC10c : Entry :=
  { name := "width_clk", type := "period", from_pin := "clk", to_pin := "clk",
    from_pin_edge := none, to_pin_edge := none,
    is_absolute := false, is_incremental := false,
    is_timing_check := true, is_timing_env := false,
    is_cond := false, cond_equation := none,
    delay_paths := [("nominal", ⟨some "4", some "7", some "11"⟩)] }

def hdrC5a : List (String × HVal) := [("design", HVal.strV "top"), ("date", HVal.strV "today")]

def hdrC5b : List (String × HVal) := [("date", HVal.strV "today"), ("design", HVal.strV "top")]

/-- One rendered line per header item, in the mapping's insertion order
(the specification-level description of the header section). -/
def renderHeaderItems (indent : String) : List (String × HVal) → Except String (List String)
  | [] => .ok []
  | (k, v) :: rest =>
    match headerItemStr indent k v with
    | .error msg => .error msg
    | .ok line =>
      match renderHeaderItems indent rest with
      | .error msg => .error msg
      | .ok lines => .ok (line :: lines)

/-- Concatenate rendered lines, one `print` call per line. -/
def joinLines : List String → String
  | [] => ""
  | l :: rest => l ++ "\n" ++ joinLines rest

/-! ## Basic facts about the string order and string primitives -/

theorem charsLe_total : ∀ a b, charsLe a b = true ∨ charsLe b a = true := by
  intro a
  induction a with
  | nil => intro b; left; rfl
  | cons x xs ih =>
    intro b
    cases b with
    | nil => right; rfl
    | cons y ys =>
      by_cases h1 : x < y
      · left; simp [charsLe, h1]
      · by_cases h2 : y < x
        · right; simp [charsLe, h2]
        · rcases ih ys with h | h
          · left; simp [charsLe, h1, h2, h]
          · right; simp [charsLe, h1, h2, h]

theorem charsLe_antisymm : ∀ a b, charsLe a b = true → charsLe b a = true → a = b := by
  intro a
  induction a with
  | nil =>
    intro b _ hba
    cases b with
    | nil => rfl
    | cons y ys => simp [charsLe] at hba
  | cons x xs ih =>
    intro b hab hba
    cases b with
    | nil => simp [charsLe] at hab
    | cons y ys =>
      by_cases h1 : x < y
      · simp [charsLe, h1, asymm h1] at hba
      · by_cases h2 : y < x
        · simp [charsLe, h1, h2] at hab
        · have hxy : x = y := le_antisymm (not_lt.mp h2) (not_lt.mp h1)
          subst hxy
          simp only [charsLe, if_neg h1, if_neg h2] at hab hba
          rw [ih ys hab hba]

theorem charsLe_trans : ∀ a b c, charsLe a b = true → charsLe b c = true → charsLe a c = true := by
  intro a
  induction a with
  | nil => intro b c _ _; rfl
  | cons x xs ih =>
    intro b c hab hbc
    cases b with
    | nil => simp [charsLe] at hab
    | cons y ys =>
      cases c with
      | nil => simp [charsLe] at hbc
      | cons z zs =>
        by_cases hxy : x < y
        · by_cases hyz : y < z
          · simp [charsLe, lt_trans hxy hyz]
          · by_cases hzy : z < y
            · simp [charsLe, hyz, hzy] at hbc
            · have : y = z := le_antisymm (not_lt.mp hzy) (not_lt.mp hyz)
              subst this
              simp [charsLe, hxy]
        · by_cases hyx : y < x
          · simp [charsLe, hxy, hyx] at hab
          · have : x = y := le_antisymm (not_lt.mp hyx) (not_lt.mp hxy)
            subst this
            simp only [charsLe, if_neg hxy, if_neg hyx] at hab
            by_cases hxz : x < z
            · simp [charsLe, hxz]
            · by_cases hzx : z < x
              · simp [charsLe, hxz, hzx] at hbc
              · simp only [charsLe, if_neg hxz, if_neg hzx] at hbc ⊢
                exact ih ys zs hab hbc

theorem charsLe_refl : ∀ a, charsLe a a = true := by
  intro a
  induction a with
  | nil => rfl
  | cons x xs ih => simp [charsLe, ih]

instance : IsTotal String strLe := ⟨fun a b => charsLe_total a.data b.data⟩

instance : IsTrans String strLe := ⟨fun a b c => charsLe_trans a.data b.data c.data⟩

theorem strData_ext {a b : String} (h : a.data = b.data) : a = b := by
  cases a; cases b; exact congrArg String.mk h

instance : IsAntisymm String strLe :=
  ⟨fun a b h1 h2 => strData_ext (charsLe_antisymm a.data b.data h1 h2)⟩

theorem strLe_refl (a : String) : strLe a a := charsLe_refl a.data

theorem str_append_assoc (a b c : String) : a ++ b ++ c = a ++ (b ++ c) :=
  strData_ext (by simp [String.data_append, List.append_assoc])

theorem str_append_empty (a : String) : a ++ "" = a :=
  strData_ext (by simp [String.data_append])

/-! ## Association-list dictionary lemmas -/
theorem mem_of_dictLookup_eq_some {α} {l : List (String × α)} {k : String} {v : α}
    (h : dictLookup l k = some v) : (k, v) ∈ l := by
  induction l with
  | nil => simp [dictLookup] at h
  | cons p rest ih =>
    by_cases hk : p.1 = k
    · rw [dictLookup, if_pos hk] at h
      have hp2 : p.2 = v := by simpa using h
      have hpv : p = (k, v) := by rw [← hk, ← hp2]
      rw [← hpv]
      exact List.mem_cons_self p rest
    · rw [dictLookup, if_neg hk] at h
      exact List.mem_cons_of_mem p (ih h)

theorem dictLookup_eq_none_iff {α} {l : List (String × α)} {k : String} :
    dictLookup l k = none ↔ k ∉ l.map Prod.fst := by
  induction l with
  | nil => simp [dictLookup]
  | cons p rest ih =>
    by_cases hk : p.1 = k
    · rw [dictLookup, if_pos hk]
      simp [hk]
    · rw [dictLookup, if_neg hk]
      simp [not_or, Ne.symm hk, ih]

theorem dictLookup_eq_some_of_mem {α} {l : List (String × α)} {p : String × α}
    (hnd : (l.map Prod.fst).Nodup) (hp : p ∈ l) : dictLookup l p.1 = some p.2 := by
  induction l with
  | nil => cases hp
  | cons q rest ih =>
    cases hp with
    | head =>
      rw [dictLookup, if_pos rfl]
    | tail _ h =>
      have hq : ¬ q.1 = p.1 := by
        have hmem : p.1 ∈ rest.map Prod.fst := List.mem_map_of_mem Prod.fst h
        have hq1 : q.1 ∉ rest.map Prod.fst := (List.nodup_cons.mp (by simpa using hnd)).1
        intro he
        rw [he] at hq1
        exact hq1 hmem
      rw [dictLookup, if_neg hq]
      exact ih (List.nodup_cons.mp (by simpa using hnd)).2 h

/-! ## Dictionary equivalence up to insertion order (for claim C4) -/

theorem equivDict_lookup {α} {r : α → α → Prop} {a b : List (String × α)}
    (h : EquivDict r a b) (k : String) :
    (dictLookup a k = none ∧ dictLookup b k = none) ∨
    ∃ v w, dictLookup a k = some v ∧ dictLookup b k = some w ∧ r v w := by
  obtain ⟨hnd, hperm, hrel⟩ := h
  cases ha : dictLookup a k with
  | none =>
    left
    refine ⟨rfl, ?_⟩
    rw [dictLookup_eq_none_iff] at ha ⊢
    intro hb
    exact ha (hperm.mem_iff.mpr hb)
  | some v =>
    have hmemA : (k, v) ∈ a := mem_of_dictLookup_eq_some ha
    have hkb : k ∈ b.map Prod.fst :=
      hperm.mem_iff.mp (List.mem_map_of_mem Prod.fst hmemA)
    cases hb : dictLookup b k with
    | none => exact absurd hkb (dictLookup_eq_none_iff.mp hb)
    | some w =>
      right
      exact ⟨v, w, rfl, rfl, hrel _ hmemA _ (mem_of_dictLookup_eq_some hb) rfl⟩

theorem equivDict_lookup_eq {α} {a b : List (String × α)}
    (h : EquivDict Eq a b) (k : String) : dictLookup a k = dictLookup b k := by
  rcases equivDict_lookup h k with ⟨h1, h2⟩ | ⟨v, w, h1, h2, rfl⟩ <;> rw [h1, h2]

theorem sortedKeys_eq_of_perm {α β} {A : List (String × α)} {B : List (String × β)}
    (hperm : (A.map Prod.fst).Perm (B.map Prod.fst)) : sortedKeys A = sortedKeys B :=
  List.eq_of_perm_of_sorted
    ((List.perm_insertionSort strLe _).trans (hperm.trans (List.perm_insertionSort strLe _).symm))
    (List.sorted_insertionSort strLe _)
    (List.sorted_insertionSort strLe _)

theorem locLoop_congr (ct : String) {ia ib : InstT}
    (hk : ∀ k, dictLookup ia k = dictLookup ib k) :
    ∀ keys acc, locLoop ct ia keys acc = locLoop ct ib keys acc := by
  intro keys
  induction keys with
  | nil => intro acc; rfl
  | cons loc rest ih =>
    intro acc
    simp only [locLoop]
    rw [hk loc]
    cases dictLookup ib loc with
    | none => rfl
    | some entriesDict =>
      show (match cellBlock ct loc entriesDict with
        | Except.error msg => Except.error msg
        | Except.ok b => locLoop ct ia rest (acc ++ b)) =
        (match cellBlock ct loc entriesDict with
        | Except.error msg => Except.error msg
        | Except.ok b => locLoop ct ib rest (acc ++ b))
      cases cellBlock ct loc entriesDict with
      | error msg => rfl
      | ok b => exact ih (acc ++ b)

theorem cellsLoop_congr (uc : Bool) {A B : CellsT}
    (h : EquivDict (fun ia ib => EquivDict Eq ia ib) A B) :
    ∀ keys acc, cellsLoop uc A keys acc = cellsLoop uc B keys acc := by
  intro keys
  induction keys with
  | nil => intro acc; rfl
  | cons c rest ih =>
    intro acc
    simp only [cellsLoop]
    rcases equivDict_lookup h c with ⟨ha, hb⟩ | ⟨ia, ib, ha, hb, hr⟩
    · rw [ha, hb]
    · rw [ha, hb]
      have hloc : locLoop (if uc then pyUpper c else c) ia (sortedKeys ia) ""
          = locLoop (if uc then pyUpper c else c) ib (sortedKeys ib) "" := by
        rw [sortedKeys_eq_of_perm hr.2.1]
        exact locLoop_congr _ (equivDict_lookup_eq hr) _ _
      show (match locLoop (if uc then pyUpper c else c) ia (sortedKeys ia) "" with
        | Except.error msg => Except.error msg
        | Except.ok blocks => cellsLoop uc A rest (acc ++ blocks)) =
        (match locLoop (if uc then pyUpper c else c) ib (sortedKeys ib) "" with
        | Except.error msg => Except.error msg
        | Except.ok blocks => cellsLoop uc B rest (acc ++ blocks))
      rw [hloc]
      cases locLoop (if uc then pyUpper c else c) ib (sortedKeys ib) "" with
      | error msg => rfl
      | ok blocks => exact ih (acc ++ blocks)

theorem cellPairs_sorted (cells : CellsT) (hnd : (cells.map Prod.fst).Nodup) :
    List.Pairwise cellOrdLE (cellPairs cells) := by
  unfold cellPairs
  rw [List.pairwise_flatMap]
  constructor
  · intro c _
    cases hl : dictLookup cells c with
    | none => simp
    | some celldata =>
      rw [List.pairwise_map]
      have hs : List.Pairwise strLe (sortedKeys celldata) := List.sorted_insertionSort strLe _
      exact hs.imp (fun hxy => ⟨strLe_refl c, fun _ => hxy⟩)
  · have hsorted : List.Pairwise strLe (sortedKeys cells) := List.sorted_insertionSort strLe _
    have hnd2 : (sortedKeys cells).Nodup :=
      ((List.perm_insertionSort strLe (cells.map Prod.fst)).symm).nodup hnd
    have hne : List.Pairwise (fun a b : String => a ≠ b) (sortedKeys cells) := hnd2
    have hcomb := hsorted.and hne
    refine hcomb.imp ?_
    rintro a b ⟨hle, hneq⟩ x hx y hy
    have hxa : x.1 = a := by
      cases hla : dictLookup cells a with
      | none => rw [hla] at hx; cases hx
      | some cd =>
        rw [hla] at hx
        rcases List.mem_map.mp hx with ⟨l, _, rfl⟩
        rfl
    have hyb : y.1 = b := by
      cases hlb : dictLookup cells b with
      | none => rw [hlb] at hy; cases hy
      | some cd =>
        rw [hlb] at hy
        rcases List.mem_map.mp hy with ⟨l, _, rfl⟩
        rfl
    constructor
    · rw [hxa, hyb]; exact hle
    · intro hxy
      rw [hxa, hyb] at hxy
      exact absurd hxy hneq

/-- C4: two documents whose cell-type and instance mappings hold the same
bindings but were populated in different insertion orders emit
byte-identical text, and the (cell-type, instance) blocks are visited in
lexicographic order of cell-type name, then instance name. -/
theorem c4_sorted_emission_invariant (h : List (String × HVal)) (ts : String) (uc : Bool)
    (A B : CellsT) (he : EquivDict (fun ia ib => EquivDict Eq ia ib) A B) :
    emit_sdf [("header", PyTop.headerV h), ("cells", PyTop.cellsV A)] ts uc
      = emit_sdf [("header", PyTop.headerV h), ("cells", PyTop.cellsV B)] ts uc ∧
    List.Pairwise cellOrdLE (cellPairs A) ∧ List.Pairwise cellOrdLE (cellPairs B) := by
  refine ⟨?_, cellPairs_sorted A he.1, cellPairs_sorted B (he.2.1.nodup he.1)⟩
  have hcells : cellsLoop uc A (sortedKeys A) "" = cellsLoop uc B (sortedKeys B) "" := by
    rw [sortedKeys_eq_of_perm he.2.1]
    exact cellsLoop_congr uc he _ _
  show (match cellsLoop uc A (sortedKeys A) "" with
    | Except.error msg => (Except.error msg : Except String String)
    | Except.ok b => Except.ok (stripNone
        ("(DELAYFILE\n    (SDFVERSION \"3.0\")\n    (TIMESCALE " ++ ts ++ ")\n" ++ b ++ "\n)"))) =
    (match cellsLoop uc B (sortedKeys B) "" with
    | Except.error msg => (Except.error msg : Except String String)
    | Except.ok b => Except.ok (stripNone
        ("(DELAYFILE\n    (SDFVERSION \"3.0\")\n    (TIMESCALE " ++ ts ++ ")\n" ++ b ++ "\n)")))
  rw [hcells]

/-- Witness for C4 at two concrete cell mappings inserted in different
orders. -/
theorem c4_sorted_emission_invariant_witness :
    EquivDict (fun ia ib => EquivDict Eq ia ib) cellsW1 cellsW2 ∧
    (emit_sdf [("header", PyTop.headerV []), ("cells", PyTop.cellsV cellsW1)] "1ps" false
       = emit_sdf [("header", PyTop.headerV []), ("cells", PyTop.cellsV cellsW2)] "1ps" false ∧
     List.Pairwise cellOrdLE (cellPairs cellsW1) ∧ List.Pairwise cellOrdLE (cellPairs cellsW2)) :=
  ⟨by decide, c4_sorted_emission_invariant [] "1ps" false cellsW1 cellsW2 (by decide)⟩

/-! ## Concrete documents for the evaluation claims -/

/-- C3: a triple with all three slots absent renders exactly `()`; a full
triple `(1,2,3)` renders `1:2:3` between its parentheses; a triple with an
absent middle slot renders `1::3` in the text `emit_sdf` produces, the
absent slot left empty after the final `None` deletion of line 270. -/
theorem c3_triple_rendering :
    stripNone (gen_timing_entry ⟨none, none, none⟩) = "()" ∧
    stripNone (gen_timing_entry ⟨some "1", some "2", some "3"⟩) = "(1:2:3)" ∧
    stripNone (gen_timing_entry ⟨some "1", none, some "3"⟩) = "(1::3)" ∧
    (emit_sdf docC3 "1ps" false).map (inStr "(1::3)") = Except.ok true := by decide

/-- C9: `emit_sdf` deletes every occurrence of the substring `None` from
the assembled output, so two different documents — one whose cell-type
name contains `None` — emit identical text: emission is not injective on
identifiers. -/
theorem c9_none_stripping :
    docC9a ≠ docC9b ∧
    emit_sdf docC9a "1ps" false = emit_sdf docC9b "1ps" false ∧
    (emit_sdf docC9a "1ps" false).map (inStr "None") = Except.ok false ∧
    (emit_sdf docC9a "1ps" false).map (inStr "(CELLTYPE \"acell\")") = Except.ok true := by
  decide

/-- C2 (code bug): the writer is not total.  On a well-formed document
with one absolute IOPATH whose `delay_paths` maps `nominal` to a triple,
`emit_sdf` raises TypeError — line 170 passes the mapping's key (a
string) to `gen_timing_entry`, which subscripts it with `min` — and on an
empty document it raises UnboundLocalError, because the `for slice in
timings` loop never assigns `sdf`. -/
theorem c2_writer_totality_code_bug :
    emit_sdf docC2 "1ps" false = Except.error "TypeError: string indices must be integers" ∧
    emit_sdf [] "1ps" false
      = Except.error "UnboundLocalError: local variable sdf referenced before assignment" := by
  decide

/-- C1 (code bug): evaluated on the Document of the repository's own
`retain_path` round-trip test, `print_sdf` emits no IOPATH keyword, no pin
name and no condition — every timing entry of the Document is lost, only
an empty DELAY/ABSOLUTE skeleton and the header survive — so re-parsing
the output cannot reproduce an equal Document. -/
theorem c1_round_trip_code_bug :
    (print_sdf docRetain "  ").map (inStr "IOPATH") = Except.ok false ∧
    (print_sdf docRetain "  ").map (inStr "mck") = Except.ok false ∧
    (print_sdf docRetain "  ").map (inStr "COND") = Except.ok false ∧
    (print_sdf docRetain "  ").map (inStr "(ABSOLUTE") = Except.ok true ∧
    (print_sdf docRetain "  ").map (inStr "(TIMESCALE 100 ps)") = Except.ok true := by decide

/-- C7 (code bug): the spec-modelled expression normalization does yield
the token-spaced equation, but re-emission loses the conditional IOPATH:
`print_sdf` prints neither COND nor the equation, and the `emit_sdf` path
raises TypeError on the entry before it could print
`(COND (...)` with its extra parentheses. -/
theorem c7_cond_iopath_code_bug :
    normalizeCondTokens ["en", "==", tokB1] = condEq ∧
    (print_sdf docCond "  ").map (inStr "COND") = Except.ok false ∧
    (print_sdf docCond "  ").map (inStr condEq) = Except.ok false ∧
    delayEntryStr entryRetainCond
      = Except.error "TypeError: string indices must be integers" := by decide

/-! ## Prefix dispatch facts (claims C8, C10) -/

theorem startsWidth_not_setuphold {s : String} (h : pyStartswith s "width" = true) :
    pyStartswith s "setuphold" = false := by
  unfold pyStartswith at h ⊢
  have hw : ("width" : String).data = ['w', 'i', 'd', 't', 'h'] := rfl
  have hs : ("setuphold" : String).data = ['s', 'e', 't', 'u', 'p', 'h', 'o', 'l', 'd'] := rfl
  rw [hw] at h
  rw [hs]
  cases hd : s.data with
  | nil => rw [hd] at h; simp [isPrefixChars] at h
  | cons c rest =>
    rw [hd] at h
    simp only [isPrefixChars, Bool.and_eq_true, decide_eq_true_eq] at h
    rw [← h.1]
    simp [isPrefixChars]

theorem startsSetuphold_not_width {s : String} (h : pyStartswith s "setuphold" = true) :
    pyStartswith s "width" = false := by
  unfold pyStartswith at h ⊢
  have hw : ("width" : String).data = ['w', 'i', 'd', 't', 'h'] := rfl
  have hs : ("setuphold" : String).data = ['s', 'e', 't', 'u', 'p', 'h', 'o', 'l', 'd'] := rfl
  rw [hs] at h
  rw [hw]
  cases hd : s.data with
  | nil => rw [hd] at h; simp [isPrefixChars] at h
  | cons c rest =>
    rw [hd] at h
    simp only [isPrefixChars, Bool.and_eq_true, decide_eq_true_eq] at h
    rw [← h.1]
    simp [isPrefixChars]

/-- C8: every width-kind timing check (its builder key, stored in `name`,
starts with its kind `width`) is emitted with only the input port spec —
edge-qualified through `inPortStr` when an edge is present — and its
nominal triple; the output-pin field is suppressed entirely (the conclusion
does not mention `to_pin` or `to_pin_edge`). -/
theorem c8_width_rendering (e : Entry) (n : Triple)
    (htc : e.is_timing_check = true)
    (hty : e.type = "width")
    (hnm : pyStartswith e.name "width" = true)
    (hcond : e.is_cond = false)
    (hnom : dictLookup e.delay_paths "nominal" = some n) :
    tcheckEntryStr e
      = Except.ok ("\n                (WIDTH  " ++ inPortStr e ++ " "
          ++ gen_timing_entry n ++ ")") := by
  have hsh := startsWidth_not_setuphold hnm
  simp only [tcheckEntryStr, htc, hcond, hnm, hsh, hty, hnom]
  simp only [str_append_assoc]
  rfl

/-- Witness for C8 at a concrete edge-qualified width check. -/
theorem c8_width_rendering_witness :
    entryC8.is_timing_check = true ∧ entryC8.type = "width" ∧
    pyStartswith entryC8.name "width" = true ∧ entryC8.is_cond = false ∧
    dictLookup entryC8.delay_paths "nominal" = some ⟨some "4.4", some "7.5", some "11.3"⟩ ∧
    tcheckEntryStr entryC8
      = Except.ok ("\n                (WIDTH  " ++ inPortStr entryC8 ++ " "
          ++ gen_timing_entry ⟨some "4.4", some "7.5", some "11.3"⟩ ++ ")") :=
  ⟨rfl, rfl, rfl, rfl, rfl,
    c8_width_rendering entryC8 ⟨some "4.4", some "7.5", some "11.3"⟩ rfl rfl rfl rfl rfl⟩

/-- C10: the timing-check writer dispatches on the prefix of the `name`
key, not on the `type` field: a non-`setuphold`-named entry renders with
the single `nominal` triple whatever its `type` says; a `setuphold`-named
entry renders the two `setup`/`hold` triples whatever its `type` says; a
`width`-named entry has its output-pin field suppressed. -/
theorem c10_name_dispatch :
    (∀ (e : Entry) (n : Triple), e.is_timing_check = true → e.is_cond = false →
      pyStartswith e.name "setuphold" = false → pyStartswith e.name "width" = false →
      dictLookup e.delay_paths "nominal" = some n →
      tcheckEntryStr e = Except.ok ("\n                (" ++ pyUpper e.type ++ " "
        ++ outPortStr e ++ " " ++ inPortStr e ++ " " ++ gen_timing_entry n ++ ")")) ∧
    (∀ (e : Entry) (s h : Triple), e.is_timing_check = true → e.is_cond = false →
      pyStartswith e.name "setuphold" = true →
      dictLookup e.delay_paths "setup" = some s →
      dictLookup e.delay_paths "hold" = some h →
      tcheckEntryStr e = Except.ok ("\n                (" ++ pyUpper e.type ++ " "
        ++ outPortStr e ++ " " ++ inPortStr e ++ " " ++ gen_timing_entry s ++ " "
        ++ gen_timing_entry h ++ ")")) ∧
    (∀ (e : Entry) (n : Triple), e.is_timing_check = true → e.is_cond = false →
      pyStartswith e.name "width" = true →
      dictLookup e.delay_paths "nominal" = some n →
      tcheckEntryStr e = Except.ok ("\n                (" ++ pyUpper e.type ++ "  "
        ++ inPortStr e ++ " " ++ gen_timing_entry n ++ ")")) := by
  refine ⟨?_, ?_, ?_⟩
  · intro e n htc hcond hsh hw hnom
    simp only [tcheckEntryStr, htc, hcond, hsh, hw, hnom]
    simp only [str_append_assoc]
    rfl
  · intro e s h htc hcond hsh hset hhold
    have hw := startsSetuphold_not_width hsh
    simp only [tcheckEntryStr, htc, hcond, hsh, hw, hset, hhold]
    simp only [str_append_assoc]
    rfl
  · intro e n htc hcond hw hnom
    have hsh := startsWidth_not_setuphold hw
    simp only [tcheckEntryStr, htc, hcond, hsh, hw, hnom]
    simp only [str_append_assoc]
    rfl

/-- Witness for C10: a `type = setuphold` entry named `check1` gets the
nominal branch; a `setuphold`-named entry of `type = recovery` gets the
SETUP/HOLD branch; a `width`-named entry of `type = period` has its output
pin suppressed. -/
theorem c10_name_dispatch_witness :
    tcheckEntryStr entryC10a
      = Except.ok ("\n                (" ++ pyUpper entryC10a.type ++ " "
        ++ outPortStr entryC10a ++ " " ++ inPortStr entryC10a ++ " "
        ++ gen_timing_entry ⟨some "1", some "2", some "3"⟩ ++ ")") ∧
    tcheckEntryStr entryC10b
      = Except.ok ("\n                (" ++ pyUpper entryC10b.type ++ " "
        ++ outPortStr entryC10b ++ " " ++ inPortStr entryC10b ++ " "
        ++ gen_timing_entry ⟨some "3", some "4", some "5"⟩ ++ " "
        ++ gen_timing_entry ⟨some "-1", some "-1", some "-1"⟩ ++ ")") ∧
    tcheckEntryStr entryC10c
      = Except.ok ("\n                (" ++ pyUpper entryC10c.type ++ "  "
        ++ inPortStr entryC10c ++ " " ++ gen_timing_entry ⟨some "4", some "7", some "11"⟩ ++ ")") :=
  ⟨c10_name_dispatch.1 entryC10a ⟨some "1", some "2", some "3"⟩ rfl rfl rfl rfl rfl,
   c10_name_dispatch.2.1 entryC10b ⟨some "3", some "4", some "5"⟩
     ⟨some "-1", some "-1", some "-1"⟩ rfl rfl rfl rfl rfl,
   c10_name_dispatch.2.2 entryC10c ⟨some "4", some "7", some "11"⟩ rfl rfl rfl rfl⟩

/-! ## Header emission (claims C5, C6) -/

/-- C5 counterexample: two documents whose headers hold exactly the same
items (one is a permutation of the other) print their header lines in
different orders, so header items are emitted in the mapping's insertion
order, not in a fixed canonical key order. -/
theorem c5_header_counterexample :
    hdrC5a.Perm hdrC5b ∧
    print_sdf { header := hdrC5a, cells := none } "  "
      ≠ print_sdf { header := hdrC5b, cells := none } "  " := by
  constructor
  · exact List.Perm.swap _ _ _
  · decide

theorem headerLoop_renders (indent : String) :
    ∀ (h : List (String × HVal)) (acc : String),
    headerLoop indent h acc
      = (renderHeaderItems indent h).map (fun lines => acc ++ joinLines lines) := by
  intro h
  induction h with
  | nil =>
    intro acc
    show Except.ok acc = Except.ok (acc ++ joinLines [])
    rw [joinLines, str_append_empty]
  | cons p rest ih =>
    intro acc
    cases p with
    | mk k v =>
      simp only [headerLoop, renderHeaderItems]
      cases headerItemStr indent k v with
      | error msg => rfl
      | ok line =>
        show headerLoop indent rest (acc ++ line ++ "\n")
            = Except.map (fun lines => acc ++ joinLines lines)
                (match renderHeaderItems indent rest with
                 | .error msg => .error msg
                 | .ok lines => .ok (line :: lines))
        rw [ih]
        cases renderHeaderItems indent rest with
        | error msg => rfl
        | ok lines =>
          show Except.ok (acc ++ line ++ "\n" ++ joinLines lines)
              = Except.ok (acc ++ joinLines (line :: lines))
          rw [joinLines]
          simp only [str_append_assoc]

/-- C5 amended: the indent-based writer emits DELAYFILE and then exactly
the header items present in the document — one line per item, hence each
key at most once — in the header mapping's insertion order rather than a
fixed canonical key order; and `emit_sdf` ignores the document header
entirely, always emitting the fixed `SDFVERSION "3.0"` and parameter
timescale pair. -/
theorem c5_header_amended :
    (∀ (indent : String) (hdr : List (String × HVal)) (cells : Option CellsT),
      print_sdf { header := hdr, cells := cells } indent
        = (renderHeaderItems indent hdr).map (fun lines =>
            "(DELAYFILE\n" ++ joinLines lines
              ++ (match cells with | some cs => cellsPrintLoop indent cs | none => "")
              ++ ")")) ∧
    (∀ (h1 h2 : List (String × HVal)) (cells : CellsT) (ts : String) (uc : Bool),
      emit_sdf [("header", PyTop.headerV h1), ("cells", PyTop.cellsV cells)] ts uc
        = emit_sdf [("header", PyTop.headerV h2), ("cells", PyTop.cellsV cells)] ts uc) := by
  constructor
  · intro indent hdr cells
    unfold print_sdf
    rw [headerLoop_renders]
    cases renderHeaderItems indent hdr with
    | error msg => rfl
    | ok lines =>
      show Except.ok ("(DELAYFILE\n" ++ ("" ++ joinLines lines)
            ++ (match cells with | some cs => cellsPrintLoop indent cs | none => "") ++ ")")
          = Except.ok ("(DELAYFILE\n" ++ joinLines lines
            ++ (match cells with | some cs => cellsPrintLoop indent cs | none => "") ++ ")")
      rfl
  · intro h1 h2 cells ts uc
    rfl

theorem takeWhile_all_append (p : Char → Bool) :
    ∀ (l1 l2 : List Char), (∀ c ∈ l1, p c = true) → (∀ c ∈ l2, p c = false) →
    (l1 ++ l2).takeWhile p = l1 := by
  intro l1
  induction l1 with
  | nil =>
    intro l2 _ h2
    cases l2 with
    | nil => rfl
    | cons c rest => simp [List.takeWhile_cons, h2 c (List.mem_cons_self c rest)]
  | cons c rest ih =>
    intro l2 h1 h2
    simp [List.takeWhile_cons, h1 c (List.mem_cons_self c rest),
      ih l2 (fun d hd => h1 d (List.mem_cons_of_mem c hd)) h2]

theorem dropWhile_all_append (p : Char → Bool) :
    ∀ (l1 l2 : List Char), (∀ c ∈ l1, p c = true) → (∀ c ∈ l2, p c = false) →
    (l1 ++ l2).dropWhile p = l2 := by
  intro l1
  induction l1 with
  | nil =>
    intro l2 _ h2
    cases l2 with
    | nil => rfl
    | cons c rest => simp [List.dropWhile_cons, h2 c (List.mem_cons_self c rest)]
  | cons c rest ih =>
    intro l2 h1 h2
    simp [List.dropWhile_cons, h1 c (List.mem_cons_self c rest),
      ih l2 (fun d hd => h1 d (List.mem_cons_of_mem c hd)) h2]

/-- The regex `^(\d+)(\D+)$` of line 315 splits a stored timescale into
its digit part and its digit-free unit part. -/
theorem timescaleSplit_eq (d u : String) (hd : d.data ≠ [])
    (hdall : ∀ c ∈ d.data, c.isDigit = true) (hu : u.data ≠ [])
    (huall : ∀ c ∈ u.data, c.isDigit = false) :
    timescaleSplit (d ++ u) = some (d, u) := by
  have hall : u.data.all (fun c => ¬ c.isDigit) = true := by
    rw [List.all_eq_true]
    intro c hc
    simp [huall c hc]
  unfold timescaleSplit
  rw [String.data_append, takeWhile_all_append _ _ _ hdall huall,
    dropWhile_all_append _ _ _ hdall huall, if_pos ⟨hd, hu, hall⟩]

/-- C6 counterexample: a voltage triple with an absent slot prints the
literal text `None` in that slot (`print_sdf` never strips it), not the
claimed empty slot `:2:3`. -/
theorem c6_header_value_counterexample :
    headerItemStr "  " "voltage" (HVal.tripV ⟨none, some "2", some "3"⟩)
      = Except.ok "  (VOLTAGE None:2:3)" ∧
    format_triplet ⟨none, some "2", some "3"⟩ ≠ ":2:3" := by decide

/-- C6 amended: a stored timescale value splitting as digits followed by
a digit-free unit is re-printed `<digits> <unit>` (so `100ps` prints
`100 ps`); a voltage or temperature triple renders `min:avg:max` with an
absent slot rendered as the literal `None` — empty output only when all
three slots are absent. -/
theorem c6_header_value_amended (indent d u : String) (hd : d.data ≠ [])
    (hdall : ∀ c ∈ d.data, c.isDigit = true) (hu : u.data ≠ [])
    (huall : ∀ c ∈ u.data, c.isDigit = false) :
    headerItemStr indent "timescale" (HVal.strV (d ++ u))
      = Except.ok (indent ++ "(TIMESCALE " ++ d ++ " " ++ u ++ ")") ∧
    (∀ a b : String, format_triplet ⟨none, some a, some b⟩ = "None:" ++ a ++ ":" ++ b) ∧
    format_triplet ⟨none, none, none⟩ = "" := by
  refine ⟨?_, ?_, rfl⟩
  · unfold headerItemStr
    rw [if_neg (by decide), if_neg (by decide), if_pos rfl]
    simp only [timescaleSplit_eq d u hd hdall hu huall]
    simp only [str_append_assoc]
    rfl
  · intro a b
    show pyStr none ++ ":" ++ pyStr (some a) ++ ":" ++ pyStr (some b) = "None:" ++ a ++ ":" ++ b
    simp only [str_append_assoc]
    rfl

/-- Witness for C6 at the literal `100ps` timescale of the spec scenario
and a concrete partial triple. -/
theorem c6_header_value_amended_witness :
    headerItemStr "  " "timescale" (HVal.strV ("100" ++ "ps"))
      = Except.ok ("  " ++ "(TIMESCALE " ++ "100" ++ " " ++ "ps" ++ ")") ∧
    (∀ a b : String, format_triplet ⟨none, some a, some b⟩ = "None:" ++ a ++ ":" ++ b) ∧
    format_triplet ⟨none, none, none⟩ = "" :=
  c6_header_value_amended "  " "100" "ps" (by decide) (by decide) (by decide) (by decide)
